/-
  Verification of the Kamino health-factor engine
  (programs/kamino-integration/src/lib.rs).

  The engine folds a list of collateral positions and a list of debt
  positions into a Q64.64 health factor.  Machine integers are modelled as
  Nat (u64, u16, u8, u128, and the U256 intermediate of the helpers) and
  Int (i64), with explicit range conditions where overflow matters.  The
  Rust helpers end in `U256::as_u128`, which panics (aborts outside the
  `Result`) when the value does not fit in 128 bits; that abort is modelled
  by an explicit `Fail.panic` outcome next to the five typed errors.
-/
import Mathlib

set_option maxRecDepth 100000

namespace KaminoHF

/-- The five typed errors of the engine (enum `HfError` in lib.rs). -/
inductive HfError where
  | MathOverflow
  | InvalidPrice
  | InvalidDecimals
  | InvalidLiqThreshold
  | InvalidBorrowFactor
deriving DecidableEq, Repr

/-- An abnormal outcome: a typed error carried in the `Result`, or a Rust
panic (`U256::as_u128` of the `uint` crate aborts with "Integer overflow
when casting to u128" when the value has bits at position 128 or above). -/
inductive Fail where
  | err (e : HfError)
  | panic
deriving DecidableEq, Repr

/-- Bound of `u128` arithmetic: `2 ^ 128`. -/
def U128_MOD : Nat := 2 ^ 128

/-- Bound of the `U256` wide intermediate: `2 ^ 256`. -/
def U256_MOD : Nat := 2 ^ 256

/-- The value `u128::MAX = 2 ^ 128 - 1`. -/
def U128_MAX : Nat := 2 ^ 128 - 1

/-- The constant `ONE_Q64_64 = 1u128 << 64`, i.e. 1.0 in Q64.64. -/
def ONE_Q64_64 : Nat := 2 ^ 64

/-- Models `U256::as_u128`: the value when it fits in 128 bits, and a panic
otherwise. -/
def as_u128 (v : Nat) : Except Fail Nat :=
  if v < U128_MOD then .ok v else .error .panic

/-- Models `U256::checked_mul` on operands below `2 ^ 256`: `none` exactly
when the mathematical product does not fit in 256 bits. -/
def checked_mul_u256 (a b : Nat) : Option Nat :=
  if a * b < U256_MOD then some (a * b) else none

/-- Models `ten_pow`: `10u128.pow(dec as u32)`.  Every call site first
checks `dec ≤ 18`, where the power fits in `u128`. -/
def ten_pow (dec : Nat) : Nat := 10 ^ dec

/-- Models `mul_div_q64(a, b, denom)` (lib.rs lines 178-186): zero
denominator and `U256` product overflow give `MathOverflow`; the final
`as_u128` of the truncated quotient panics when it does not fit. -/
def mul_div_q64 (a b denom : Nat) : Except Fail Nat :=
  if denom = 0 then .error (.err .MathOverflow)
  else
    match checked_mul_u256 a b with
    | none => .error (.err .MathOverflow)
    | some res => as_u128 (res / denom)

/-- Models `q64_mul(a_q64, b_q64)` (lib.rs lines 190-196):
`(U256(a) * U256(b)) >> 64`, then `as_u128`. -/
def q64_mul (a_q64 b_q64 : Nat) : Except Fail Nat :=
  match checked_mul_u256 a_q64 b_q64 with
  | none => .error (.err .MathOverflow)
  | some prod => as_u128 (prod / ONE_Q64_64)

/-- Models `q64_div(a_q64, b_q64)` (lib.rs lines 200-206): `MathOverflow`
on zero divisor, otherwise `(U256(a) << 64) / b` followed by `as_u128`.
The `U256` shift wraps modulo `2 ^ 256` (never reached from a `u128`
argument). -/
def q64_div (a_q64 b_q64 : Nat) : Except Fail Nat :=
  if b_q64 = 0 then .error (.err .MathOverflow)
  else as_u128 (a_q64 * ONE_Q64_64 % U256_MOD / b_q64)

/-- Models `bps_to_q64(bps)` (lib.rs lines 172-174). -/
def bps_to_q64 (bps : Nat) : Except Fail Nat :=
  mul_div_q64 bps ONE_Q64_64 10000

/-- Models the Rust cast `price_e8 as u128` on an `i64`: twos-complement
sign extension to 128 bits. -/
def i64_as_u128 (x : Int) : Nat := (x % (2 ^ 128 : Int)).toNat

/-- Models `q64_from_price_e8(price_e8)` (lib.rs lines 210-216):
`(U256(price_e8 as u128) * ONE_Q64_64) / 100_000`, then `as_u128`.  The
divisor in the source is `100_000`, not `10 ^ 8`. -/
def q64_from_price_e8 (price_e8 : Int) : Except Fail Nat :=
  as_u128 (i64_as_u128 price_e8 * ONE_Q64_64 / 100000)

/-- Models struct `CollateralInput` (fields `amount : u64`,
`decimals : u8`, `price_e8 : i64`, `liq_threshold_bps : u16`,
`borrow_factor_bps : u16`). -/
structure CollateralInput where
  amount : Nat
  decimals : Nat
  price_e8 : Int
  liq_threshold_bps : Nat
  borrow_factor_bps : Nat
deriving DecidableEq, Repr

/-- Models struct `DebtInput` (fields `amount : u64`, `decimals : u8`,
`price_e8 : i64`). -/
structure DebtInput where
  amount : Nat
  decimals : Nat
  price_e8 : Int
deriving DecidableEq, Repr

/-- Models struct `ComputeArgs`. -/
structure ComputeArgs where
  collaterals : List CollateralInput
  debts : List DebtInput
deriving DecidableEq, Repr

/-- Range conditions of the Rust field types of `CollateralInput`. -/
def CollateralInput.Wf (c : CollateralInput) : Prop :=
  c.amount < 2 ^ 64 ∧ c.decimals < 2 ^ 8 ∧
  -(2 ^ 63 : Int) ≤ c.price_e8 ∧ c.price_e8 < 2 ^ 63 ∧
  c.liq_threshold_bps < 2 ^ 16 ∧ c.borrow_factor_bps < 2 ^ 16

instance (c : CollateralInput) : Decidable c.Wf := by
  unfold CollateralInput.Wf; infer_instance

/-- Range conditions of the Rust field types of `DebtInput`. -/
def DebtInput.Wf (d : DebtInput) : Prop :=
  d.amount < 2 ^ 64 ∧ d.decimals < 2 ^ 8 ∧
  -(2 ^ 63 : Int) ≤ d.price_e8 ∧ d.price_e8 < 2 ^ 63

instance (d : DebtInput) : Decidable d.Wf := by
  unfold DebtInput.Wf; infer_instance

/-- Range conditions of `ComputeArgs`. -/
def ComputeArgs.Wf (args : ComputeArgs) : Prop :=
  (∀ c ∈ args.collaterals, c.Wf) ∧ ∀ d ∈ args.debts, d.Wf

/-- The validation prelude of the collateral loop: the four `require!`
checks of lib.rs lines 105-112, returning the error of the first failing check. -/
def validateCollateral (c : CollateralInput) : Option HfError :=
  if ¬ 0 < c.price_e8 then some .InvalidPrice
  else if ¬ c.decimals ≤ 18 then some .InvalidDecimals
  else if ¬ c.liq_threshold_bps ≤ 10000 then some .InvalidLiqThreshold
  else if ¬ (c.borrow_factor_bps = 0 ∨
      (1000 ≤ c.borrow_factor_bps ∧ c.borrow_factor_bps ≤ 10000)) then
    some .InvalidBorrowFactor
  else none

/-- One iteration of the collateral loop (lib.rs lines 105-128):
validation, then normalisation, pricing, threshold weighting and the
optional borrow-factor division.  The `?` early returns of the source are
written as explicit matches. -/
def collateralValue (c : CollateralInput) : Except Fail Nat :=
  match validateCollateral c with
  | some e => .error (.err e)
  | none =>
    match mul_div_q64 c.amount ONE_Q64_64 (ten_pow c.decimals) with
    | .error f => .error f
    | .ok amt_norm_q64 =>
      match q64_from_price_e8 c.price_e8 with
      | .error f => .error f
      | .ok price_q64 =>
        match bps_to_q64 c.liq_threshold_bps with
        | .error f => .error f
        | .ok lt_q64 =>
          match q64_mul amt_norm_q64 price_q64 with
          | .error f => .error f
          | .ok val =>
            match q64_mul val lt_q64 with
            | .error f => .error f
            | .ok val2 =>
              if 0 < c.borrow_factor_bps then
                match bps_to_q64 c.borrow_factor_bps with
                | .error f => .error f
                | .ok bf_q64 => q64_div val2 bf_q64
              else
                .ok val2

/-- The collateral valuation before the borrow-factor step (lib.rs lines
105-122), used to state the borrow-factor equation. -/
def collateralBaseValue (c : CollateralInput) : Except Fail Nat :=
  match validateCollateral c with
  | some e => .error (.err e)
  | none =>
    match mul_div_q64 c.amount ONE_Q64_64 (ten_pow c.decimals) with
    | .error f => .error f
    | .ok amt_norm_q64 =>
      match q64_from_price_e8 c.price_e8 with
      | .error f => .error f
      | .ok price_q64 =>
        match bps_to_q64 c.liq_threshold_bps with
        | .error f => .error f
        | .ok lt_q64 =>
          match q64_mul amt_norm_q64 price_q64 with
          | .error f => .error f
          | .ok val => q64_mul val lt_q64

/-- The validation prelude of the debt loop: the two `require!` checks of
lib.rs lines 138-139. -/
def validateDebt (d : DebtInput) : Option HfError :=
  if ¬ 0 < d.price_e8 then some .InvalidPrice
  else if ¬ d.decimals ≤ 18 then some .InvalidDecimals
  else none

/-- One iteration of the debt loop (lib.rs lines 138-146). -/
def debtValue (d : DebtInput) : Except Fail Nat :=
  match validateDebt d with
  | some e => .error (.err e)
  | none =>
    match mul_div_q64 d.amount ONE_Q64_64 (ten_pow d.decimals) with
    | .error f => .error f
    | .ok amt_norm_q64 =>
      match q64_from_price_e8 d.price_e8 with
      | .error f => .error f
      | .ok price_q64 => q64_mul amt_norm_q64 price_q64

/-- Models `u128::checked_add(..).ok_or(HfError::MathOverflow)`. -/
def checked_add_u128 (a b : Nat) : Except Fail Nat :=
  if a + b < U128_MOD then .ok (a + b) else .error (.err .MathOverflow)

/-- The collateral accumulation loop (lib.rs lines 104-134), starting from
accumulator `acc`. -/
def accumCollaterals : List CollateralInput → Nat → Except Fail Nat
  | [], acc => .ok acc
  | c :: rest, acc =>
    match collateralValue c with
    | .error f => .error f
    | .ok val =>
      match checked_add_u128 acc val with
      | .error f => .error f
      | .ok acc2 => accumCollaterals rest acc2

/-- The debt accumulation loop (lib.rs lines 137-152), starting from
accumulator `acc`. -/
def accumDebts : List DebtInput → Nat → Except Fail Nat
  | [], acc => .ok acc
  | d :: rest, acc =>
    match debtValue d with
    | .error f => .error f
    | .ok val =>
      match checked_add_u128 acc val with
      | .error f => .error f
      | .ok acc2 => accumDebts rest acc2

/-- Models `compute_hf_internal` (lib.rs lines 99-160): accumulate
collateral and debt totals, then resolve the health factor, with
`u128::MAX` as the zero-debt sentinel. -/
def compute_hf_internal (args : ComputeArgs) : Except Fail Nat :=
  match accumCollaterals args.collaterals 0 with
  | .error f => .error f
  | .ok total_collateral_value_q64 =>
    match accumDebts args.debts 0 with
    | .error f => .error f
    | .ok total_debt_value_q64 =>
      if total_debt_value_q64 = 0 then .ok U128_MAX
      else q64_div total_collateral_value_q64 total_debt_value_q64

instance {ε α : Type} [DecidableEq ε] [DecidableEq α] :
    DecidableEq (Except ε α) := fun x y =>
  match x, y with
  | .ok a, .ok b =>
    if h : a = b then .isTrue (by rw [h])
    else .isFalse fun hh => h (Except.ok.inj hh)
  | .error a, .error b =>
    if h : a = b then .isTrue (by rw [h])
    else .isFalse fun hh => h (Except.error.inj hh)
  | .ok _, .error _ => .isFalse Except.noConfusion
  | .error _, .ok _ => .isFalse Except.noConfusion

/-! Section: Characterisations of the arithmetic primitives -/

theorem mul_div_q64_eq_ok {a b d v : Nat} :
    mul_div_q64 a b d = .ok v ↔
      d ≠ 0 ∧ a * b < U256_MOD ∧ a * b / d < U128_MOD ∧ a * b / d = v := by
  by_cases hd : d = 0
  · simp [mul_div_q64, hd]
  · by_cases hm : a * b < U256_MOD
    · by_cases hq : a * b / d < U128_MOD
      · simp [mul_div_q64, checked_mul_u256, as_u128, hd, hm, hq]
      · simp [mul_div_q64, checked_mul_u256, as_u128, hd, hm, hq]
    · simp [mul_div_q64, checked_mul_u256, hd, hm]

theorem q64_mul_eq_ok {a b v : Nat} :
    q64_mul a b = .ok v ↔
      a * b < U256_MOD ∧ a * b / ONE_Q64_64 < U128_MOD ∧ a * b / ONE_Q64_64 = v := by
  by_cases hm : a * b < U256_MOD
  · by_cases hq : a * b / ONE_Q64_64 < U128_MOD
    · simp [q64_mul, checked_mul_u256, as_u128, hm, hq]
    · simp [q64_mul, checked_mul_u256, as_u128, hm, hq]
  · simp [q64_mul, checked_mul_u256, hm]

theorem q64_div_eq_ok {a b v : Nat} :
    q64_div a b = .ok v ↔
      b ≠ 0 ∧ a * ONE_Q64_64 % U256_MOD / b < U128_MOD ∧
        a * ONE_Q64_64 % U256_MOD / b = v := by
  by_cases hb : b = 0
  · simp [q64_div, hb]
  · by_cases hq : a * ONE_Q64_64 % U256_MOD / b < U128_MOD
    · simp [q64_div, as_u128, hb, hq]
    · simp [q64_div, as_u128, hb, hq]

theorem checked_add_u128_eq_ok {a b v : Nat} :
    checked_add_u128 a b = .ok v ↔ a + b < U128_MOD ∧ a + b = v := by
  by_cases h : a + b < U128_MOD
  · simp [checked_add_u128, h]
  · simp [checked_add_u128, h]

/-- A shifted `u128` value stays below the `U256` bound. -/
theorem shl64_lt_u256 {a : Nat} (h : a < U128_MOD) :
    a * ONE_Q64_64 < U256_MOD := by
  calc a * ONE_Q64_64 < U128_MOD * ONE_Q64_64 :=
        Nat.mul_lt_mul_of_lt_of_le h (le_refl _) (by decide)
    _ ≤ U256_MOD := by decide

/-- The `U256` shift of a `u128` value does not wrap. -/
theorem shl64_mod_eq {a : Nat} (h : a < U128_MOD) :
    a * ONE_Q64_64 % U256_MOD = a * ONE_Q64_64 :=
  Nat.mod_eq_of_lt (shl64_lt_u256 h)

theorem ten_pow_ne_zero (dec : Nat) : ten_pow dec ≠ 0 :=
  (Nat.pos_pow_of_pos dec (by decide)).ne'

/-- A `u64` amount normalises without error: the wide product fits and the
quotient fits in `u128`. -/
theorem mul_div_q64_amount {a : Nat} (h : a < 2 ^ 64) (dec : Nat) :
    mul_div_q64 a ONE_Q64_64 (ten_pow dec) =
      .ok (a * ONE_Q64_64 / ten_pow dec) := by
  have hlt : a * ONE_Q64_64 < U128_MOD := by
    calc a * ONE_Q64_64 < 2 ^ 64 * ONE_Q64_64 :=
          Nat.mul_lt_mul_of_lt_of_le h (le_refl _) (by decide)
      _ ≤ U128_MOD := by decide
  exact mul_div_q64_eq_ok.mpr
    ⟨ten_pow_ne_zero dec, lt_trans hlt (by decide),
     lt_of_le_of_lt (Nat.div_le_self _ _) hlt, rfl⟩

/-- A strictly positive `i64` price converts without error. -/
theorem q64_from_price_e8_pos {p : Int} (h0 : 0 < p) (h1 : p < 2 ^ 63) :
    q64_from_price_e8 p = .ok (p.toNat * ONE_Q64_64 / 100000) := by
  have hcast : i64_as_u128 p = p.toNat := by
    unfold i64_as_u128
    rw [Int.emod_eq_of_lt (le_of_lt h0)
      (lt_trans h1 (by norm_num : (2 ^ 63 : Int) < 2 ^ 128))]
  have htn : p.toNat < 2 ^ 63 := by omega
  have hlt : p.toNat * ONE_Q64_64 / 100000 < U128_MOD := by
    have : p.toNat * ONE_Q64_64 < 2 ^ 63 * ONE_Q64_64 :=
      Nat.mul_lt_mul_of_lt_of_le htn (le_refl _) (by decide)
    have h2 : p.toNat * ONE_Q64_64 / 100000 ≤ p.toNat * ONE_Q64_64 :=
      Nat.div_le_self _ _
    calc p.toNat * ONE_Q64_64 / 100000 ≤ p.toNat * ONE_Q64_64 := h2
      _ < 2 ^ 63 * ONE_Q64_64 := this
      _ ≤ U128_MOD := by decide
  unfold q64_from_price_e8 as_u128
  rw [hcast, if_pos hlt]

/-- Basis points at or below 10000 convert without error. -/
theorem bps_to_q64_le {bps : Nat} (h : bps ≤ 10000) :
    bps_to_q64 bps = .ok (bps * ONE_Q64_64 / 10000) := by
  have hm : bps * ONE_Q64_64 < U256_MOD := by
    calc bps * ONE_Q64_64 ≤ 10000 * ONE_Q64_64 :=
          Nat.mul_le_mul_right _ h
      _ < U256_MOD := by decide
  have hq : bps * ONE_Q64_64 / 10000 < U128_MOD := by
    calc bps * ONE_Q64_64 / 10000 ≤ 10000 * ONE_Q64_64 / 10000 :=
          Nat.div_le_div_right (Nat.mul_le_mul_right _ h)
      _ < U128_MOD := by decide
  exact mul_div_q64_eq_ok.mpr ⟨by decide, hm, hq, rfl⟩

/-- Basis points of at least 1000 give a strictly positive Q64.64 value. -/
theorem bps_to_q64_pos {bps : Nat} (h : 1000 ≤ bps) :
    0 < bps * ONE_Q64_64 / 10000 := by
  calc 0 < 1000 * ONE_Q64_64 / 10000 := by decide
    _ ≤ bps * ONE_Q64_64 / 10000 :=
        Nat.div_le_div_right (Nat.mul_le_mul_right _ h)

/-! Section: Monotonicity of the primitives on successful runs -/

theorem mul_div_q64_mono {a a' b d v v' : Nat} (ha : a ≤ a')
    (h1 : mul_div_q64 a b d = .ok v) (h2 : mul_div_q64 a' b d = .ok v') :
    v ≤ v' := by
  obtain ⟨-, -, -, hv⟩ := mul_div_q64_eq_ok.mp h1
  obtain ⟨-, -, -, hv'⟩ := mul_div_q64_eq_ok.mp h2
  subst hv hv'
  exact Nat.div_le_div_right (Nat.mul_le_mul_right _ ha)

theorem q64_mul_mono {a a' b v v' : Nat} (ha : a ≤ a')
    (h1 : q64_mul a b = .ok v) (h2 : q64_mul a' b = .ok v') : v ≤ v' := by
  obtain ⟨-, -, hv⟩ := q64_mul_eq_ok.mp h1
  obtain ⟨-, -, hv'⟩ := q64_mul_eq_ok.mp h2
  subst hv hv'
  exact Nat.div_le_div_right (Nat.mul_le_mul_right _ ha)

theorem q64_mul_ok_lt {a b v : Nat} (h : q64_mul a b = .ok v) : v < U128_MOD := by
  obtain ⟨-, hlt, hv⟩ := q64_mul_eq_ok.mp h
  exact hv ▸ hlt

theorem q64_div_ok_lt {a b v : Nat} (h : q64_div a b = .ok v) : v < U128_MOD := by
  obtain ⟨-, hlt, hv⟩ := q64_div_eq_ok.mp h
  exact hv ▸ hlt

theorem q64_div_mono_num {a a' b v v' : Nat} (ha : a ≤ a') (ha' : a' < U128_MOD)
    (h1 : q64_div a b = .ok v) (h2 : q64_div a' b = .ok v') : v ≤ v' := by
  obtain ⟨-, -, hv⟩ := q64_div_eq_ok.mp h1
  obtain ⟨-, -, hv'⟩ := q64_div_eq_ok.mp h2
  subst hv hv'
  rw [shl64_mod_eq (lt_of_le_of_lt ha ha'), shl64_mod_eq ha']
  exact Nat.div_le_div_right (Nat.mul_le_mul_right _ ha)

theorem q64_div_anti_den {a b b' v v' : Nat} (hb : 0 < b) (hbb : b ≤ b')
    (ha : a < U128_MOD)
    (h1 : q64_div a b = .ok v) (h2 : q64_div a b' = .ok v') : v' ≤ v := by
  obtain ⟨-, -, hv⟩ := q64_div_eq_ok.mp h1
  obtain ⟨-, -, hv'⟩ := q64_div_eq_ok.mp h2
  subst hv hv'
  rw [shl64_mod_eq ha]
  exact Nat.div_le_div_left hbb hb

/-! Section: Inversion of the per-asset valuations -/

theorem collateralValue_err_of_validate {c : CollateralInput} {e : HfError}
    (h : validateCollateral c = some e) :
    collateralValue c = .error (.err e) := by
  unfold collateralValue
  rw [h]

theorem debtValue_err_of_validate {d : DebtInput} {e : HfError}
    (h : validateDebt d = some e) :
    debtValue d = .error (.err e) := by
  unfold debtValue
  rw [h]

theorem collateralValue_ok_inv {c : CollateralInput} {v : Nat}
    (h : collateralValue c = .ok v) :
    validateCollateral c = none ∧
    ∃ amt price lt2 val val2,
      mul_div_q64 c.amount ONE_Q64_64 (ten_pow c.decimals) = .ok amt ∧
      q64_from_price_e8 c.price_e8 = .ok price ∧
      bps_to_q64 c.liq_threshold_bps = .ok lt2 ∧
      q64_mul amt price = .ok val ∧
      q64_mul val lt2 = .ok val2 ∧
      ((0 < c.borrow_factor_bps ∧
          ∃ bf2, bps_to_q64 c.borrow_factor_bps = .ok bf2 ∧
            q64_div val2 bf2 = .ok v) ∨
        (c.borrow_factor_bps = 0 ∧ v = val2)) := by
  unfold collateralValue at h
  split at h
  · exact Except.noConfusion h
  · rename_i hval
    refine ⟨hval, ?_⟩
    split at h
    · exact Except.noConfusion h
    · rename_i amt hamt
      split at h
      · exact Except.noConfusion h
      · rename_i price hprice
        split at h
        · exact Except.noConfusion h
        · rename_i lt2 hlt2
          split at h
          · exact Except.noConfusion h
          · rename_i val hv1
            split at h
            · exact Except.noConfusion h
            · rename_i val2 hv2
              refine ⟨amt, price, lt2, val, val2,
                hamt, hprice, hlt2, hv1, hv2, ?_⟩
              split at h
              · rename_i hbf
                split at h
                · exact Except.noConfusion h
                · rename_i bf2 hbf2
                  exact .inl ⟨hbf, bf2, hbf2, h⟩
              · rename_i hbf
                exact .inr ⟨by omega, (Except.ok.inj h).symm⟩

theorem debtValue_ok_inv {d : DebtInput} {v : Nat}
    (h : debtValue d = .ok v) :
    validateDebt d = none ∧
    ∃ amt price,
      mul_div_q64 d.amount ONE_Q64_64 (ten_pow d.decimals) = .ok amt ∧
      q64_from_price_e8 d.price_e8 = .ok price ∧
      q64_mul amt price = .ok v := by
  unfold debtValue at h
  split at h
  · exact Except.noConfusion h
  · rename_i hval
    refine ⟨hval, ?_⟩
    split at h
    · exact Except.noConfusion h
    · rename_i amt hamt
      split at h
      · exact Except.noConfusion h
      · rename_i price hprice
        exact ⟨amt, price, hamt, hprice, h⟩

theorem collateralValue_ok_lt {c : CollateralInput} {v : Nat}
    (h : collateralValue c = .ok v) : v < U128_MOD := by
  obtain ⟨-, amt, price, lt2, val, val2, -, -, -, -, hv2, hlast⟩ :=
    collateralValue_ok_inv h
  rcases hlast with ⟨-, bf2, -, hdiv⟩ | ⟨-, rfl⟩
  · exact q64_div_ok_lt hdiv
  · exact q64_mul_ok_lt hv2

/-- Increasing only the `amount` field of a collateral never decreases its
computed value, when both runs succeed. -/
theorem collateralValue_mono_amount {c c' : CollateralInput} {v v' : Nat}
    (hamt : c.amount ≤ c'.amount)
    (hdec : c'.decimals = c.decimals) (hp : c'.price_e8 = c.price_e8)
    (hlt : c'.liq_threshold_bps = c.liq_threshold_bps)
    (hbf : c'.borrow_factor_bps = c.borrow_factor_bps)
    (h1 : collateralValue c = .ok v) (h2 : collateralValue c' = .ok v') :
    v ≤ v' := by
  obtain ⟨-, amt, price, lt2, val, val2,
    hamt1, hprice1, hlt1, hval1, hval21, hlast1⟩ := collateralValue_ok_inv h1
  obtain ⟨-, amt', price', lt2', val', val2',
    hamt2, hprice2, hlt2, hval2, hval22, hlast2⟩ := collateralValue_ok_inv h2
  rw [hdec] at hamt2
  rw [hp] at hprice2
  rw [hlt] at hlt2
  rw [hbf] at hlast2
  have hpr : price' = price := by
    rw [hprice1] at hprice2; exact (Except.ok.inj hprice2).symm
  have hl2 : lt2' = lt2 := by
    rw [hlt1] at hlt2; exact (Except.ok.inj hlt2).symm
  subst hpr hl2
  have h_amt : amt ≤ amt' := mul_div_q64_mono hamt hamt1 hamt2
  have h_val : val ≤ val' := q64_mul_mono h_amt hval1 hval2
  have h_val2 : val2 ≤ val2' := q64_mul_mono h_val hval21 hval22
  have h_val2' : val2' < U128_MOD := q64_mul_ok_lt hval22
  rcases hlast1 with ⟨hb1, bf2, hbf21, hdiv1⟩ | ⟨hb0, rfl⟩
  · rcases hlast2 with ⟨-, bf2', hbf22, hdiv2⟩ | ⟨hb0', -⟩
    · have hb2 : bf2' = bf2 := by
        rw [hbf21] at hbf22; exact (Except.ok.inj hbf22).symm
      subst hb2
      exact q64_div_mono_num h_val2 h_val2' hdiv1 hdiv2
    · omega
  · rcases hlast2 with ⟨hb2, -⟩ | ⟨-, rfl⟩
    · omega
    · exact h_val2

/-! Section: The accumulation loops -/

theorem accumCollaterals_cons_ok {c : CollateralInput} {val acc acc2 : Nat}
    (l : List CollateralInput)
    (hval : collateralValue c = .ok val)
    (hacc2 : checked_add_u128 acc val = .ok acc2) :
    accumCollaterals (c :: l) acc = accumCollaterals l acc2 := by
  simp [accumCollaterals, hval, hacc2]

theorem accumCollaterals_cons_err {c : CollateralInput} {f : Fail}
    (l : List CollateralInput) (acc : Nat)
    (hval : collateralValue c = .error f) :
    accumCollaterals (c :: l) acc = .error f := by
  simp [accumCollaterals, hval]

theorem accumDebts_cons_ok {d : DebtInput} {val acc acc2 : Nat}
    (l : List DebtInput)
    (hval : debtValue d = .ok val)
    (hacc2 : checked_add_u128 acc val = .ok acc2) :
    accumDebts (d :: l) acc = accumDebts l acc2 := by
  simp [accumDebts, hval, hacc2]

theorem accumDebts_cons_err {d : DebtInput} {f : Fail}
    (l : List DebtInput) (acc : Nat)
    (hval : debtValue d = .error f) :
    accumDebts (d :: l) acc = .error f := by
  simp [accumDebts, hval]

theorem accumCollaterals_ok_lt : ∀ (l : List CollateralInput) {acc r : Nat},
    acc < U128_MOD → accumCollaterals l acc = .ok r → r < U128_MOD
  | [], acc, r, hacc, h => by
    unfold accumCollaterals at h
    exact Except.ok.inj h ▸ hacc
  | c :: rest, acc, r, hacc, h => by
    unfold accumCollaterals at h
    split at h
    · exact Except.noConfusion h
    · rename_i val hval
      split at h
      · exact Except.noConfusion h
      · rename_i acc2 hacc2
        obtain ⟨hlt, -⟩ := checked_add_u128_eq_ok.mp hacc2
        obtain ⟨-, heq⟩ := checked_add_u128_eq_ok.mp hacc2
        exact accumCollaterals_ok_lt rest (heq ▸ hlt) h

theorem accumCollaterals_mono : ∀ (l : List CollateralInput) {a a' r r' : Nat},
    a ≤ a' → accumCollaterals l a = .ok r → accumCollaterals l a' = .ok r' →
    r ≤ r'
  | [], a, a', r, r', hle, h1, h2 => by
    unfold accumCollaterals at h1 h2
    rw [← Except.ok.inj h1, ← Except.ok.inj h2]
    exact hle
  | c :: rest, a, a', r, r', hle, h1, h2 => by
    unfold accumCollaterals at h1 h2
    split at h1
    · exact Except.noConfusion h1
    · rename_i val hval
      split at h1
      · exact Except.noConfusion h1
      · rename_i acc2 hacc2
        split at h2
        · rename_i f hval'
          rw [hval] at hval'
          exact Except.noConfusion hval'
        · rename_i val' hval'
          rw [hval] at hval'
          obtain rfl : val = val' := Except.ok.inj hval'
          split at h2
          · exact Except.noConfusion h2
          · rename_i acc2' hacc2'
            obtain ⟨-, he⟩ := checked_add_u128_eq_ok.mp hacc2
            obtain ⟨-, he'⟩ := checked_add_u128_eq_ok.mp hacc2'
            exact accumCollaterals_mono rest (by omega) h1 h2

theorem accumCollaterals_append_ok : ∀ (l1 : List CollateralInput)
    (l2 : List CollateralInput) {acc mid : Nat},
    accumCollaterals l1 acc = .ok mid →
    accumCollaterals (l1 ++ l2) acc = accumCollaterals l2 mid
  | [], l2, acc, mid, h => by
    unfold accumCollaterals at h
    rw [List.nil_append, Except.ok.inj h]
  | c :: rest, l2, acc, mid, h => by
    unfold accumCollaterals at h
    split at h
    · exact Except.noConfusion h
    · rename_i val hval
      split at h
      · exact Except.noConfusion h
      · rename_i acc2 hacc2
        rw [List.cons_append, accumCollaterals_cons_ok _ hval hacc2]
        exact accumCollaterals_append_ok rest l2 h

theorem accumCollaterals_append_inv : ∀ (l1 : List CollateralInput)
    (l2 : List CollateralInput) {acc r : Nat},
    accumCollaterals (l1 ++ l2) acc = .ok r →
    ∃ mid, accumCollaterals l1 acc = .ok mid ∧ accumCollaterals l2 mid = .ok r
  | [], l2, acc, r, h => ⟨acc, rfl, h⟩
  | c :: rest, l2, acc, r, h => by
    rw [List.cons_append] at h
    unfold accumCollaterals at h
    split at h
    · exact Except.noConfusion h
    · rename_i val hval
      split at h
      · exact Except.noConfusion h
      · rename_i acc2 hacc2
        obtain ⟨mid, hm1, hm2⟩ := accumCollaterals_append_inv rest l2 h
        refine ⟨mid, ?_, hm2⟩
        rw [accumCollaterals_cons_ok _ hval hacc2]
        exact hm1

theorem accumDebts_append_ok : ∀ (l1 : List DebtInput)
    (l2 : List DebtInput) {acc mid : Nat},
    accumDebts l1 acc = .ok mid →
    accumDebts (l1 ++ l2) acc = accumDebts l2 mid
  | [], l2, acc, mid, h => by
    unfold accumDebts at h
    rw [List.nil_append, Except.ok.inj h]
  | d :: rest, l2, acc, mid, h => by
    unfold accumDebts at h
    split at h
    · exact Except.noConfusion h
    · rename_i val hval
      split at h
      · exact Except.noConfusion h
      · rename_i acc2 hacc2
        rw [List.cons_append, accumDebts_cons_ok _ hval hacc2]
        exact accumDebts_append_ok rest l2 h

/-- Two `u128` values multiply without overflowing the `U256` width. -/
theorem mul_lt_u256 {x y : Nat} (hx : x < U128_MOD) (hy : y < U128_MOD) :
    x * y < U256_MOD := by
  have h : x * y ≤ (U128_MOD - 1) * (U128_MOD - 1) :=
    Nat.mul_le_mul (by omega) (by omega)
  exact lt_of_le_of_lt h (by decide)

theorem q64_from_price_e8_ok_lt {p : Int} {v : Nat}
    (h : q64_from_price_e8 p = .ok v) : v < U128_MOD := by
  unfold q64_from_price_e8 as_u128 at h
  split at h
  · rename_i hlt
    exact Except.ok.inj h ▸ hlt
  · exact Except.noConfusion h

/-- On `u128` inputs, `q64_mul` never produces a typed error: the `U256`
product check cannot fire, so the only failure is the `as_u128` panic. -/
theorem q64_mul_no_err {a b : Nat} (h : a * b < U256_MOD) (e : HfError) :
    q64_mul a b ≠ .error (.err e) := by
  intro hc
  simp only [q64_mul, checked_mul_u256, as_u128, h, if_true] at hc
  split at hc
  · exact Except.noConfusion hc
  · exact Fail.noConfusion (Except.error.inj hc)

/-- A debt list whose entries all evaluate to zero accumulates to zero. -/
theorem accumDebts_all_zero : ∀ (l : List DebtInput),
    (∀ d ∈ l, debtValue d = .ok 0) → accumDebts l 0 = .ok 0
  | [], _ => rfl
  | d :: rest, h => by
    have hd : debtValue d = .ok 0 := h d (List.mem_cons_self d rest)
    have hca : checked_add_u128 0 0 = .ok 0 := by decide
    rw [accumDebts_cons_ok _ hd hca]
    exact accumDebts_all_zero rest fun x hx => h x (List.mem_cons_of_mem d hx)

/-! Section: Claim theorems -/

/-- Claim C1 (amended): when the collateral accumulation itself succeeds
(which entails that every collateral entry passed validation and no
arithmetic step overflowed) and every debt entry evaluates to the Q64.64
value zero — in particular when the debt list is empty —
`compute_hf_internal` returns `Ok(u128::MAX)`, regardless of the collateral
total. -/
theorem compute_hf_zero_debt_sentinel (args : ComputeArgs) (tc : Nat)
    (hc : accumCollaterals args.collaterals 0 = .ok tc)
    (hd : ∀ d ∈ args.debts, debtValue d = .ok 0) :
    compute_hf_internal args = .ok U128_MAX := by
  simp [compute_hf_internal, hc, accumDebts_all_zero args.debts hd]

/-- Claim C1 witness: a valid collateral together with a nonempty debt list
whose single entry evaluates to zero yields the `u128::MAX` sentinel. -/
theorem compute_hf_zero_debt_sentinel_witness :
    compute_hf_internal ⟨[⟨0, 0, 1, 0, 0⟩], [⟨1, 18, 1⟩]⟩ = .ok U128_MAX :=
  compute_hf_zero_debt_sentinel ⟨[⟨0, 0, 1, 0, 0⟩], [⟨1, 18, 1⟩]⟩ 0
    (by decide) (by decide)

/-- Claim C1 counterexample: both collaterals pass validation and the debt
list is empty, yet the computation returns `Err(MathOverflow)` from the
collateral accumulation instead of the `u128::MAX` sentinel, refuting the
claim as stated ("regardless of the collateral total"). -/
theorem compute_hf_zero_debt_sentinel_cex :
    validateCollateral ⟨2 ^ 63, 0, 100000, 10000, 0⟩ = none ∧
    compute_hf_internal
        ⟨[⟨2 ^ 63, 0, 100000, 10000, 0⟩, ⟨2 ^ 63, 0, 100000, 10000, 0⟩], []⟩
      = .error (.err .MathOverflow) := by decide

/-- Claim C2: refuted on the code.  A single collateral whose fields all
lie within their Rust types and pass validation drives `q64_mul` into
`U256::as_u128` with a value of 128 or more bits, which panics (aborts
outside the `Result`): the function is not total over its `Result` type
and the overflow is not reported as `MathOverflow`. -/
theorem compute_hf_panic_beyond_result :
    (⟨2 ^ 64 - 1, 0, 2 ^ 63 - 1, 10000, 0⟩ : CollateralInput).Wf ∧
    validateCollateral ⟨2 ^ 64 - 1, 0, 2 ^ 63 - 1, 10000, 0⟩ = none ∧
    compute_hf_internal ⟨[⟨2 ^ 64 - 1, 0, 2 ^ 63 - 1, 10000, 0⟩], []⟩
      = .error .panic := by decide

/-- Claim C3: refuted on the code.  `q64_from_price_e8` divides by
`100_000`, not by `10 ^ 8`: at the input `10 ^ 8` (price 1.0 under the e8
convention) it returns `1000 * 2 ^ 64` where the claim demands
`floor(10 ^ 8 * 2 ^ 64 / 10 ^ 8) = 2 ^ 64`. -/
theorem q64_from_price_e8_uses_1e5 :
    q64_from_price_e8 100000000 = .ok (1000 * ONE_Q64_64) ∧
    (1000 * ONE_Q64_64 : Nat) ≠ 100000000 * ONE_Q64_64 / 100000000 := by
  decide

/-- Claim C4: refuted on the code.  `q64_div` returns `MathOverflow` for a
zero divisor, but when the left-shifted quotient does not fit in 128 bits
it panics inside `U256::as_u128` instead of returning `MathOverflow`: at
`a = 2 ^ 127 < 2 ^ 128` and `b = 1` the result `2 ^ 191` is
unrepresentable and the call aborts. -/
theorem q64_div_panic_on_unrepresentable :
    (2 ^ 127 : Nat) < U128_MOD ∧
    q64_div (2 ^ 127) 1 = .error .panic ∧
    q64_div 0 0 = .error (.err .MathOverflow) := by decide

/-- Claim C5 (amended): when every entry processed before it succeeds, an
invalid entry makes the whole computation fail with the typed error of its
first failing check, in the fixed traversal order — collaterals in input
order first, then debts in input order — independent of the entries after
it. -/
theorem compute_hf_error_order :
    (∀ (pre post : List CollateralInput) (c : CollateralInput)
        (debts : List DebtInput) (acc : Nat) (e : HfError),
      accumCollaterals pre 0 = .ok acc → validateCollateral c = some e →
      compute_hf_internal ⟨pre ++ c :: post, debts⟩ = .error (.err e)) ∧
    (∀ (colls : List CollateralInput) (tc : Nat)
        (preD postD : List DebtInput) (d : DebtInput) (accD : Nat)
        (e : HfError),
      accumCollaterals colls 0 = .ok tc → accumDebts preD 0 = .ok accD →
      validateDebt d = some e →
      compute_hf_internal ⟨colls, preD ++ d :: postD⟩ = .error (.err e)) := by
  constructor
  · intro pre post c debts acc e hpre hc
    have hacc : accumCollaterals (pre ++ c :: post) 0 = .error (.err e) := by
      rw [accumCollaterals_append_ok pre (c :: post) hpre]
      exact accumCollaterals_cons_err post acc
        (collateralValue_err_of_validate hc)
    simp [compute_hf_internal, hacc]
  · intro colls tc preD postD d accD e hcolls hpre hd
    have hdebt : accumDebts (preD ++ d :: postD) 0 = .error (.err e) := by
      rw [accumDebts_append_ok preD (d :: postD) hpre]
      exact accumDebts_cons_err postD accD (debtValue_err_of_validate hd)
    simp [compute_hf_internal, hcolls, hdebt]

/-- Claim C5 witness: a leading invalid collateral fails with
`InvalidPrice`; with no collaterals, a leading invalid debt fails with
`InvalidPrice`. -/
theorem compute_hf_error_order_witness :
    compute_hf_internal ⟨[⟨0, 0, 0, 0, 0⟩], []⟩ = .error (.err .InvalidPrice) ∧
    compute_hf_internal ⟨[], [⟨5, 0, -1⟩]⟩ = .error (.err .InvalidPrice) :=
  ⟨compute_hf_error_order.1 [] [] ⟨0, 0, 0, 0, 0⟩ [] 0 .InvalidPrice rfl
      (by decide),
   compute_hf_error_order.2 [] 0 [] [] ⟨5, 0, -1⟩ 0 .InvalidPrice rfl rfl
      (by decide)⟩

/-- Claim C5 counterexample: the third collateral is invalid
(`price_e8 = 0`), yet the computation fails with `MathOverflow` raised by
the accumulation of the second (valid) collateral, not with the invalid
`InvalidPrice` of that entry: an invalid entry does not guarantee its own typed
error. -/
theorem compute_hf_error_order_cex :
    validateCollateral ⟨0, 0, 0, 0, 0⟩ = some .InvalidPrice ∧
    compute_hf_internal
        ⟨[⟨2 ^ 63, 0, 100000, 10000, 0⟩, ⟨2 ^ 63, 0, 100000, 10000, 0⟩,
          ⟨0, 0, 0, 0, 0⟩], []⟩
      = .error (.err .MathOverflow) := by decide

/-- Claim C6 (amended): debt validation checks the price and also the
decimals field — it is not price-only.  A `DebtInput` within its Rust
field ranges with strictly positive price and `decimals ≤ 18` is never
rejected with a typed error, but one with `decimals > 18` fails with
`InvalidDecimals`. -/
theorem debt_validation_decimals (d : DebtInput) (hWf : d.Wf) :
    (0 < d.price_e8 → d.decimals ≤ 18 →
      ∀ e : HfError, debtValue d ≠ .error (.err e)) ∧
    (0 < d.price_e8 → 18 < d.decimals →
      debtValue d = .error (.err .InvalidDecimals)) := by
  obtain ⟨hA, hD, hPlo, hPhi⟩ := hWf
  constructor
  · intro hp hdec e
    have hv : validateDebt d = none := by
      unfold validateDebt
      simp [hp, hdec]
    have h1 := mul_div_q64_amount hA d.decimals
    have h2 := q64_from_price_e8_pos hp hPhi
    have hXlt : d.amount * ONE_Q64_64 / ten_pow d.decimals < U128_MOD :=
      (mul_div_q64_eq_ok.mp h1).2.2.1
    have hYlt : d.price_e8.toNat * ONE_Q64_64 / 100000 < U128_MOD :=
      q64_from_price_e8_ok_lt h2
    simp only [debtValue, hv, h1, h2]
    exact q64_mul_no_err (mul_lt_u256 hXlt hYlt) e
  · intro hp hdec
    have hv : validateDebt d = some .InvalidDecimals := by
      unfold validateDebt
      simp [hp, Nat.not_le, hdec]
    exact debtValue_err_of_validate hv

/-- Claim C6 witness: a debt with positive price and small decimals raises
no typed error; a debt with `decimals = 19` fails with `InvalidDecimals`. -/
theorem debt_validation_decimals_witness :
    debtValue ⟨1, 6, 100000000⟩ ≠ .error (.err .InvalidPrice) ∧
    debtValue ⟨1, 19, 7⟩ = .error (.err .InvalidDecimals) :=
  ⟨(debt_validation_decimals ⟨1, 6, 100000000⟩ (by decide)).1 (by decide)
      (by decide) .InvalidPrice,
   (debt_validation_decimals ⟨1, 19, 7⟩ (by decide)).2 (by decide) (by decide)⟩

/-- Claim C6 counterexample: a debt entry with strictly positive price but
`decimals = 19 > 18` is rejected by validation with `InvalidDecimals`,
refuting the claim that price-only checks apply to debts. -/
theorem debt_validation_decimals_cex :
    validateDebt ⟨0, 19, 1⟩ = some .InvalidDecimals ∧
    compute_hf_internal ⟨[], [⟨0, 19, 1⟩]⟩ = .error (.err .InvalidDecimals) := by
  decide

/-- Claim C9 (amended): on the scenario input the computation succeeds and
returns exactly 59029581035870568367, which lies within 3200 units of the
2⁻⁶⁴ encoding above the rational 3.2·2⁶⁴ (= 59029581035870565171.2): the
intermediate truncations of the Q64.64 pipeline shift the result a few
thousand ulps away from the ideal value 3.2. -/
theorem compute_hf_scenario_exact :
    compute_hf_internal
        ⟨[⟨1000, 6, 200000000, 8000, 0⟩], [⟨500, 6, 100000000⟩]⟩
      = .ok 59029581035870568367 ∧
    16 * ONE_Q64_64 ≤ 5 * 59029581035870568367 ∧
    5 * 59029581035870568367 - 16 * ONE_Q64_64 < 5 * 3200 := by decide

/-- Claim C9 counterexample: the value returned on the scenario input is
not `3.2 · 2 ^ 64` — neither as an exact rational (5·result ≠ 16·2⁶⁴) nor
as its floor `⌊3.2 · 2 ^ 64⌋ = 16 · 2 ^ 64 / 5`. -/
theorem compute_hf_scenario_cex :
    compute_hf_internal
        ⟨[⟨1000, 6, 200000000, 8000, 0⟩], [⟨500, 6, 100000000⟩]⟩
      = .ok 59029581035870568367 ∧
    5 * 59029581035870568367 ≠ 16 * ONE_Q64_64 ∧
    (59029581035870568367 : Nat) ≠ 16 * ONE_Q64_64 / 5 := by decide

/-- Claim C10: a nonempty debt list whose single entry has strictly
positive amount and passes validation, yet whose Q64.64 value floors to
zero (amount 1, 18 decimals, price_e8 1), drives the total debt value to 0
and makes `compute_hf_internal` return the `u128::MAX` sentinel. -/
theorem compute_hf_zero_value_debt :
    0 < (⟨1, 18, 1⟩ : DebtInput).amount ∧
    validateDebt ⟨1, 18, 1⟩ = none ∧
    debtValue ⟨1, 18, 1⟩ = .ok 0 ∧
    compute_hf_internal ⟨[], [⟨1, 18, 1⟩]⟩ = .ok U128_MAX := by decide

/-- Claim C7: raising the `amount` of one collateral entry while every
other field of that entry, every other entry and the debt list stay fixed
never decreases the health factor, whenever both computations succeed. -/
theorem compute_hf_monotone_collateral_amount
    (pre post : List CollateralInput) (debts : List DebtInput)
    (c c' : CollateralInput) (hf hf' : Nat)
    (hamt : c.amount ≤ c'.amount)
    (hdec : c'.decimals = c.decimals) (hp : c'.price_e8 = c.price_e8)
    (hlt : c'.liq_threshold_bps = c.liq_threshold_bps)
    (hbf : c'.borrow_factor_bps = c.borrow_factor_bps)
    (h1 : compute_hf_internal ⟨pre ++ c :: post, debts⟩ = .ok hf)
    (h2 : compute_hf_internal ⟨pre ++ c' :: post, debts⟩ = .ok hf') :
    hf ≤ hf' := by
  simp only [compute_hf_internal] at h1 h2
  split at h1
  · exact Except.noConfusion h1
  · rename_i tc htc
    split at h1
    · exact Except.noConfusion h1
    · rename_i td htd
      split at h2
      · exact Except.noConfusion h2
      · rename_i tc' htc'
        split at h2
        · exact Except.noConfusion h2
        · rename_i td' htd'
          rw [htd] at htd'
          obtain rfl : td = td' := Except.ok.inj htd'
          obtain ⟨acc0, hpre, hcpost⟩ :=
            accumCollaterals_append_inv pre (c :: post) htc
          obtain ⟨acc0', hpre', hcpost'⟩ :=
            accumCollaterals_append_inv pre (c' :: post) htc'
          rw [hpre] at hpre'
          obtain rfl : acc0 = acc0' := Except.ok.inj hpre'
          unfold accumCollaterals at hcpost hcpost'
          split at hcpost
          · exact Except.noConfusion hcpost
          · rename_i vc hvc
            split at hcpost
            · exact Except.noConfusion hcpost
            · rename_i s hs
              split at hcpost'
              · exact Except.noConfusion hcpost'
              · rename_i vc' hvc'
                split at hcpost'
                · exact Except.noConfusion hcpost'
                · rename_i s' hs'
                  have hvcle : vc ≤ vc' :=
                    collateralValue_mono_amount hamt hdec hp hlt hbf hvc hvc'
                  obtain ⟨-, hse⟩ := checked_add_u128_eq_ok.mp hs
                  obtain ⟨-, hse'⟩ := checked_add_u128_eq_ok.mp hs'
                  have htcle : tc ≤ tc' :=
                    accumCollaterals_mono post (by omega) hcpost hcpost'
                  have htclt : tc' < U128_MOD :=
                    accumCollaterals_ok_lt (pre ++ c' :: post) (by decide) htc'
                  split at h1
                  · rename_i h0
                    rw [if_pos h0] at h2
                    have e1 := Except.ok.inj h1
                    have e2 := Except.ok.inj h2
                    omega
                  · rename_i h0
                    rw [if_neg h0] at h2
                    exact q64_div_mono_num htcle htclt h1 h2

/-- Claim C7 witness: doubling the amount of the single collateral from 1 to 2
raises the health factor from 1.0 to 2.0 in Q64.64. -/
theorem compute_hf_monotone_collateral_amount_witness :
    compute_hf_internal ⟨[⟨1, 0, 100000, 10000, 0⟩], [⟨1, 0, 100000⟩]⟩
        = .ok 18446744073709551616 ∧
    compute_hf_internal ⟨[⟨2, 0, 100000, 10000, 0⟩], [⟨1, 0, 100000⟩]⟩
        = .ok 36893488147419103232 ∧
    (18446744073709551616 : Nat) ≤ 36893488147419103232 :=
  ⟨by decide, by decide,
   compute_hf_monotone_collateral_amount [] [] [⟨1, 0, 100000⟩]
     ⟨1, 0, 100000, 10000, 0⟩ ⟨2, 0, 100000, 10000, 0⟩
     18446744073709551616 36893488147419103232
     (by decide) rfl rfl rfl rfl (by decide) (by decide)⟩

/-- Claim C8 (amended): raising the borrow factor of a collateral within
the valid range [1000, 10000], all other fields fixed, never increases the
computed Q64.64 contribution of that entry — equality can occur even away
from the boundary, e.g. when the base value floors to zero — and with a
positive borrow factor the contribution is exactly the base value
`q64_div`-ed by `bps_to_q64(borrow_factor_bps)`. -/
theorem collateral_borrow_factor_antitone :
    (∀ (c c' : CollateralInput) (v v' : Nat),
      c'.amount = c.amount → c'.decimals = c.decimals →
      c'.price_e8 = c.price_e8 → c'.liq_threshold_bps = c.liq_threshold_bps →
      1000 ≤ c.borrow_factor_bps →
      c.borrow_factor_bps ≤ c'.borrow_factor_bps →
      c'.borrow_factor_bps ≤ 10000 →
      collateralValue c = .ok v → collateralValue c' = .ok v' → v' ≤ v) ∧
    (∀ c : CollateralInput, 0 < c.borrow_factor_bps →
      collateralValue c =
        Except.bind (collateralBaseValue c) fun val =>
          Except.bind (bps_to_q64 c.borrow_factor_bps) fun bf_q64 =>
            q64_div val bf_q64) := by
  constructor
  · intro c c' v v' hA hD hP hL hblo hbb hbhi h1 h2
    obtain ⟨-, amt, price, lt2, val, val2,
      hamt1, hprice1, hlt1, hval1, hval21, hlast1⟩ := collateralValue_ok_inv h1
    obtain ⟨-, amt', price', lt2', val', val2',
      hamt2, hprice2, hlt2, hval2, hval22, hlast2⟩ := collateralValue_ok_inv h2
    rw [hA, hD] at hamt2
    rw [hP] at hprice2
    rw [hL] at hlt2
    rw [hamt1] at hamt2
    obtain rfl : amt = amt' := Except.ok.inj hamt2
    rw [hprice1] at hprice2
    obtain rfl : price = price' := Except.ok.inj hprice2
    rw [hlt1] at hlt2
    obtain rfl : lt2 = lt2' := Except.ok.inj hlt2
    rw [hval1] at hval2
    obtain rfl : val = val' := Except.ok.inj hval2
    rw [hval21] at hval22
    obtain rfl : val2 = val2' := Except.ok.inj hval22
    rcases hlast1 with ⟨-, bf2, hbf21, hdiv1⟩ | ⟨h0, -⟩
    · rcases hlast2 with ⟨-, bf2', hbf22, hdiv2⟩ | ⟨h0', -⟩
      · have hble : c.borrow_factor_bps ≤ 10000 := le_trans hbb hbhi
        rw [bps_to_q64_le hble] at hbf21
        obtain rfl : c.borrow_factor_bps * ONE_Q64_64 / 10000 = bf2 :=
          Except.ok.inj hbf21
        rw [bps_to_q64_le hbhi] at hbf22
        obtain rfl : c'.borrow_factor_bps * ONE_Q64_64 / 10000 = bf2' :=
          Except.ok.inj hbf22
        have hb2le : c.borrow_factor_bps * ONE_Q64_64 / 10000 ≤
            c'.borrow_factor_bps * ONE_Q64_64 / 10000 :=
          Nat.div_le_div_right (Nat.mul_le_mul_right _ hbb)
        exact q64_div_anti_den (bps_to_q64_pos hblo) hb2le
          (q64_mul_ok_lt hval21) hdiv1 hdiv2
      · omega
    · omega
  · intro c hbf
    unfold collateralValue collateralBaseValue
    cases hv : validateCollateral c with
    | some e => simp [hv, Except.bind]
    | none =>
      simp only [hv]
      cases ha : mul_div_q64 c.amount ONE_Q64_64 (ten_pow c.decimals) with
      | error f => simp [ha, Except.bind]
      | ok amt =>
        simp only [ha]
        cases hp2 : q64_from_price_e8 c.price_e8 with
        | error f => simp [hp2, Except.bind]
        | ok price =>
          simp only [hp2]
          cases hl : bps_to_q64 c.liq_threshold_bps with
          | error f => simp [hl, Except.bind]
          | ok lt2 =>
            simp only [hl]
            cases hm1 : q64_mul amt price with
            | error f => simp [hm1, Except.bind]
            | ok val =>
              simp only [hm1]
              cases hm2 : q64_mul val lt2 with
              | error f => simp [hm2, Except.bind]
              | ok val2 =>
                simp only [hm2]
                simp only [hbf, if_true]
                cases hb2 : bps_to_q64 c.borrow_factor_bps with
                | error f => simp [hb2, Except.bind]
                | ok bf_q64 => simp [hb2, Except.bind]

/-- Claim C8 witness: at borrow factor 5000 bps the unit collateral is
worth 2.0 in Q64.64, and raising the factor to 10000 bps lowers it to
1.0. -/
theorem collateral_borrow_factor_antitone_witness :
    collateralValue ⟨1, 0, 100000, 10000, 5000⟩ = .ok 36893488147419103232 ∧
    collateralValue ⟨1, 0, 100000, 10000, 10000⟩ = .ok 18446744073709551616 ∧
    (18446744073709551616 : Nat) ≤ 36893488147419103232 :=
  ⟨by decide, by decide,
   collateral_borrow_factor_antitone.1
     ⟨1, 0, 100000, 10000, 5000⟩ ⟨1, 0, 100000, 10000, 10000⟩
     36893488147419103232 18446744073709551616
     rfl rfl rfl rfl (by decide) (by decide) (by decide)
     (by decide) (by decide)⟩

/-- Claim C8 counterexample: raising the borrow factor from 1500 to 2000
bps — a strict increase inside the valid range, not at a boundary — leaves
the computed contribution unchanged (both runs return 0), refuting the
strict-decrease part of the claim. -/
theorem collateral_borrow_factor_strict_cex :
    (1500 : Nat) < 2000 ∧
    collateralValue ⟨0, 0, 1, 10000, 1500⟩ = .ok 0 ∧
    collateralValue ⟨0, 0, 1, 10000, 2000⟩ = .ok 0 := by decide

end KaminoHF
